import Mathlib

/-!
Verification of the shell-candy task runner.

The definitions below are a shallow embedding of the Rust sources:

* `src/log.rs`                — `ShellTaskLog`
* `src/error.rs`              — `Error` (see the note on its doc comment)
* `src/task/behavior.rs`      — `ShellTaskBehavior`
* `src/task/output.rs`        — `ShellTaskOutput`
* `src/task/mod.rs`           — `ShellTask.new`, `descriptor`, `bash_descriptor`,
                                and the dispatcher worker plus result assembly of
                                `ShellTask.run`
* `src/task/runner.rs`        — the per-stream reader threads

The concurrent part of `ShellTask::run` (two reader threads, one dispatcher
worker, a shared pending list and a shared result slot) is embedded as a
small-step transition system over `RunState`, with one transition per atomic
action of the real program (one critical section of a lock, or one channel
operation).  A run of the program corresponds to a list of `Event`s executed
from `initState`; theorems quantify over all such interleavings.
-/

namespace ShellCandy

/-- Log record over the two output streams, from `src/log.rs` (`ShellTaskLog`). -/
inductive ShellTaskLog where
  | Stdout (line : String)
  | Stderr (line : String)
deriving DecidableEq, Repr

/-- Exit status of the child process.  The embedding keeps the numeric code;
`success` mirrors `std::process::ExitStatus::success` (code zero). -/
structure ExitStatus where
  code : Int
deriving DecidableEq, Repr

/-- Mirrors `ExitStatus::success()`. -/
def ExitStatus.success (s : ExitStatus) : Bool := s.code == 0

/-- The boxed user-defined error type (`Box<dyn std::error::Error>` in
`src/task/behavior.rs`).  A boxed value is either an error supplied by the
handler, or the crate error `Error::PoisonedLog` boxed by the dispatcher in
`src/task/mod.rs` lines 217-225.  `E` is the type of handler-supplied errors. -/
inductive UserError (E : Type) where
  | user (e : E)
  | poisonedLog (task : String)
deriving DecidableEq, Repr

/-- Crate error type.  Modelled from the spec: the file `src/error.rs` in the
scanned tree is a superseded variant that lacks the `PoisonedLog` and
`CouldNotFindCurrentDirectory` variants which `src/task/mod.rs` constructs;
those two variants are modelled from spec section 7.  The `source` payloads of
the io-error-wrapping variants are dropped (they are opaque OS errors). -/
inductive Error (E : Type) where
  | TaskFailure (task : String) (exit_status : ExitStatus)
  | InvalidTask (task : String) (reason : String)
  | CouldNotSpawn (task : String)
  | CouldNotWait (task : String)
  | CouldNotFindCurrentDirectory
  | PoisonedLog (task : String)
  | EarlyReturn (e : UserError E)
deriving DecidableEq, Repr

/-- Handler signal, from `src/task/behavior.rs` (`ShellTaskBehavior<T>`).
The payload of `EarlyReturn` is `UserDefinedResult<T>`. -/
inductive ShellTaskBehavior (T E : Type) where
  | EarlyReturn (r : Except (UserError E) T)
  | Passthrough
deriving Repr

/-- Run output, from `src/task/output.rs` (`ShellTaskOutput<T>`). -/
inductive ShellTaskOutput (T : Type) where
  | EarlyReturn (stdout_lines : List String) (stderr_lines : List String) (return_value : T)
  | CompleteOutput (status : ExitStatus) (stdout_lines : List String) (stderr_lines : List String)
deriving Repr

/-- One splitting step of Rust `str::split(' ')`: every separator character
cuts, empty pieces are kept, and the result always has at least one piece. -/
def splitCharAux (sep : Char) : List Char → List Char → List String
  | [], acc => [String.mk acc.reverse]
  | c :: cs, acc =>
    if c = sep then String.mk acc.reverse :: splitCharAux sep cs []
    else splitCharAux sep cs (c :: acc)

/-- Rust `str::split(sep)` collected into a list, as used by `ShellTask::new`
(`command.split(' ').collect()`, `src/task/mod.rs` line 41). -/
def splitChar (sep : Char) (s : String) : List String :=
  splitCharAux sep s.data []

/-- Task configuration, from `src/task/mod.rs` (`ShellTask`).  The two channel
endpoints stored in the Rust struct carry no data and are part of the run
model instead; the environment map is a plain association list here. -/
structure ShellTask where
  bin : String
  args : List String
  current_dir : String
  envs : List (String × String)
  full_command : String
deriving DecidableEq, Repr

/-- Constructor `ShellTask::new` (`src/task/mod.rs` lines 37-68).  The probe
`which::which` is abstracted as the pure predicate `resolves`, and
`env::current_dir()` as the `cwd` argument (`none` models the io failure).
No process is spawned here: the function is pure.  -/
def ShellTask.new {E : Type} (resolves : String → Bool) (cwd : Option String)
    (command : String) : Except (Error E) ShellTask :=
  match cwd with
  | none => Except.error Error.CouldNotFindCurrentDirectory
  | some current_dir =>
    match splitChar ' ' command with
    | [] => Except.error (Error.InvalidTask command "an empty string is not a command")
    | bin :: rest =>
      if resolves bin then
        Except.ok { bin := bin, args := rest, current_dir := current_dir,
                    envs := [], full_command := command }
      else
        Except.error (Error.InvalidTask command
          ("\x27" ++ bin ++ "\x27 is not installed on this machine"))

/-- Accessor `ShellTask::descriptor` (`src/task/mod.rs` lines 90-92). -/
def ShellTask.descriptor (t : ShellTask) : String := t.full_command

/-- Accessor `ShellTask::bash_descriptor` (`src/task/mod.rs` lines 95-97),
`format!("$ {}", self.descriptor())`. -/
def ShellTask.bash_descriptor (t : ShellTask) : String := "$ " ++ t.descriptor

theorem splitCharAux_ne_nil (sep : Char) (l acc : List Char) :
    splitCharAux sep l acc ≠ [] := by
  induction l generalizing acc with
  | nil => simp [splitCharAux]
  | cons c cs ih =>
    simp only [splitCharAux]
    split
    · simp
    · exact ih _

theorem splitChar_ne_nil (sep : Char) (s : String) : splitChar sep s ≠ [] :=
  splitCharAux_ne_nil sep s.data []

theorem splitChar_empty : splitChar ' ' "" = [""] := rfl

/-- Rust `Iterator::position` on a list, as used by the dispatcher to locate a
pending entry to drop (`src/task/mod.rs` lines 195-204). -/
def position (p : ShellTaskLog → Bool) : List ShellTaskLog → Option Nat
  | [] => none
  | x :: xs => if p x then some 0 else (position p xs).map (· + 1)

/-- Test for the `Stderr` variant (`matches!(e, ShellTaskLog::Stderr(_))`). -/
def isStderrRec : ShellTaskLog → Bool
  | ShellTaskLog.Stderr _ => true
  | ShellTaskLog.Stdout _ => false

/-- Test for the `Stdout` variant (`matches!(e, ShellTaskLog::Stdout(_))`). -/
def isStdoutRec : ShellTaskLog → Bool
  | ShellTaskLog.Stdout _ => true
  | ShellTaskLog.Stderr _ => false

/-- The drop performed by the dispatcher on each received record
(`src/task/mod.rs` lines 194-205): remove the first `Stderr` entry of the
shared pending list if one exists, otherwise the first `Stdout` entry,
otherwise nothing.  Note the received record itself plays no role. -/
def removeOnePending (pending : List ShellTaskLog) : List ShellTaskLog :=
  match position isStderrRec pending with
  | some i => pending.eraseIdx i
  | none =>
    match position isStdoutRec pending with
    | some i => pending.eraseIdx i
    | none => pending

/-- Number of `Stderr` entries in a pending list. -/
def stderrCount (l : List ShellTaskLog) : Nat := l.countP isStderrRec

/-- Number of `Stdout` entries in a pending list. -/
def stdoutCount (l : List ShellTaskLog) : Nat := l.countP isStdoutRec

/-- The stdout texts of a record sequence, in order. -/
def stdoutTexts (l : List ShellTaskLog) : List String :=
  l.filterMap fun r => match r with
    | ShellTaskLog.Stdout t => some t
    | ShellTaskLog.Stderr _ => none

/-- The stderr texts of a record sequence, in order. -/
def stderrTexts (l : List ShellTaskLog) : List String :=
  l.filterMap fun r => match r with
    | ShellTaskLog.Stderr t => some t
    | ShellTaskLog.Stdout _ => none

/-- State of one invocation of `ShellTask::run`, covering the shared data of
`src/task/mod.rs` lines 160-257 and the two reader threads of
`src/task/runner.rs`.

The child process emissions still to be read from each pipe are `outPlan` /
`errPlan`.  A reader that has read a line first registers it in the shared
pending list and only then sends it on the channel (spec section 4.2; the
superseded `src/task/runner.rs` orders its counter increment before the send
in the same way); `outHeld` / `errHeld` hold a line between those two atomic
actions.  `pending` is the lock-protected `log_drain` vector, `channel` the
unbounded record channel, `stdout_lines` / `stderr_lines` the two collector
vectors, `slot` the lock-protected `maybe_result` cell, and `stopped` records
that the dispatcher worker left its loop via `break`.  `received` is the
(ghost) sequence of records the dispatcher has taken off the channel, in
order, and `poisonHit` the (ghost) fact that some dispatcher iteration found
the pending-list lock poisoned. -/
structure RunState (T E : Type) where
  outPlan : List String
  outHeld : Option String
  errPlan : List String
  errHeld : Option String
  pending : List ShellTaskLog
  channel : List ShellTaskLog
  stdout_lines : List String
  stderr_lines : List String
  slot : Option (Except (UserError E) T)
  stopped : Bool
  received : List ShellTaskLog
  poisonHit : Bool
deriving Repr

/-- Atomic actions of a run.  `outRegister`/`errRegister` is a reader placing
its freshly read line into the pending list (one critical section of the
`log_drain` lock, `src/task/runner.rs`); `outSend`/`errSend` is the matching
channel send; `dispatch poisoned` is one full iteration of the dispatcher
worker (`src/task/mod.rs` lines 180-226), with `poisoned` recording whether
`log_drainer.lock()` failed in that iteration. -/
inductive Event where
  | outRegister
  | outSend
  | errRegister
  | errSend
  | dispatch (poisoned : Bool)
deriving DecidableEq, Repr

/-- The part of a dispatcher iteration that happens on every received record
`r` before the pending-list lock is taken (`src/task/mod.rs` lines 180-192):
take `r` off the channel and unconditionally append its text to the matching
collector vector.  `received` is the ghost receipt history. -/
def dispatchBase (r : ShellTaskLog) (rest : List ShellTaskLog) (s : RunState T E) :
    RunState T E :=
  { s with
    channel := rest,
    received := s.received ++ [r],
    stdout_lines := match r with
      | ShellTaskLog.Stdout l => s.stdout_lines ++ [l]
      | ShellTaskLog.Stderr _ => s.stdout_lines,
    stderr_lines := match r with
      | ShellTaskLog.Stderr l => s.stderr_lines ++ [l]
      | ShellTaskLog.Stdout _ => s.stderr_lines }

/-- A full non-poisoned dispatcher iteration up to the handler call: the
receipt bookkeeping of `dispatchBase` plus the removal of one entry from the
shared pending list (`src/task/mod.rs` lines 194-205). -/
def dispatchStep (r : ShellTaskLog) (rest : List ShellTaskLog) (s : RunState T E) :
    RunState T E :=
  { dispatchBase r rest s with pending := removeOnePending s.pending }

/-- One atomic step.  `none` means the event is not enabled in this state
(the thread in question would be blocked or past that point).  The
`dispatch` case follows `src/task/mod.rs` lines 180-226: receive a record,
append it to the collectors, then under the pending-list lock remove one
entry and call the handler; a poisoned pending-list lock instead leads to the
poisoned-lock branch (lines 217-225), which writes `PoisonedLog` into the
result slot if that slot is still empty and breaks. -/
def stepEvent (handler : ShellTaskLog → ShellTaskBehavior T E) (task : String)
    (s : RunState T E) : Event → Option (RunState T E)
  | Event.outRegister =>
    match s.outPlan, s.outHeld with
    | l :: rest, none =>
      some { s with outPlan := rest, outHeld := some l,
                    pending := s.pending ++ [ShellTaskLog.Stdout l] }
    | _, _ => none
  | Event.outSend =>
    match s.outHeld with
    | some l => some { s with outHeld := none,
                              channel := s.channel ++ [ShellTaskLog.Stdout l] }
    | none => none
  | Event.errRegister =>
    match s.errPlan, s.errHeld with
    | l :: rest, none =>
      some { s with errPlan := rest, errHeld := some l,
                    pending := s.pending ++ [ShellTaskLog.Stderr l] }
    | _, _ => none
  | Event.errSend =>
    match s.errHeld with
    | some l => some { s with errHeld := none,
                              channel := s.channel ++ [ShellTaskLog.Stderr l] }
    | none => none
  | Event.dispatch poisoned =>
    if s.stopped then none
    else
      match s.channel with
      | [] => none
      | r :: rest =>
        if poisoned then
          if s.slot.isNone then
            some { dispatchBase r rest s with
                   slot := some (Except.error (UserError.poisonedLog task)),
                   stopped := true, poisonHit := true }
          else some { dispatchBase r rest s with poisonHit := true }
        else
          match handler r with
          | ShellTaskBehavior.Passthrough => some (dispatchStep r rest s)
          | ShellTaskBehavior.EarlyReturn v =>
            if s.slot.isNone then
              some { dispatchStep r rest s with slot := some v, stopped := true }
            else some (dispatchStep r rest s)

/-- Execution of a list of events from a state; `none` if some event is not
enabled where it occurs. -/
def runTrace (handler : ShellTaskLog → ShellTaskBehavior T E) (task : String)
    (s : RunState T E) : List Event → Option (RunState T E)
  | [] => some s
  | e :: es =>
    match stepEvent handler task s e with
    | some s1 => runTrace handler task s1 es
    | none => none

/-- The state at the start of `ShellTask::run`, before any thread has acted,
for a child that will emit the stdout lines `outL` and the stderr lines
`errL`. -/
def initState (T E : Type) (outL errL : List String) : RunState T E :=
  { outPlan := outL, outHeld := none, errPlan := errL, errHeld := none,
    pending := [], channel := [], stdout_lines := [], stderr_lines := [],
    slot := none, stopped := false, received := [], poisonHit := false }

/-- Both readers have reached end of stream and flushed their last line. -/
def readersDone (s : RunState T E) : Prop :=
  s.outPlan = [] ∧ s.outHeld = none ∧ s.errPlan = [] ∧ s.errHeld = none

/-- Result assembly of `ShellTask::run` after the drain barrier
(`src/task/mod.rs` lines 259-282). -/
def assemble (task : String) (status : ExitStatus) (s : RunState T E) :
    Except (Error E) (ShellTaskOutput T) :=
  if status.success then
    match s.slot with
    | some (Except.ok t) =>
      Except.ok (ShellTaskOutput.EarlyReturn s.stdout_lines s.stderr_lines t)
    | some (Except.error e) => Except.error (Error.EarlyReturn e)
    | none => Except.ok (ShellTaskOutput.CompleteOutput status s.stdout_lines s.stderr_lines)
  else Except.error (Error.TaskFailure task status)

/-- A state in which the run can never finish: the dispatcher worker has left
its loop while the pending list is nonempty.  No later event removes pending
entries, so the drain barrier of `src/task/mod.rs` lines 245-257 never
observes an empty list and `ShellTask::run` never returns. -/
def stuckForever (handler : ShellTaskLog → ShellTaskBehavior T E) (task : String)
    (s : RunState T E) : Prop :=
  ∀ events s2, runTrace handler task s events = some s2 → s2.pending ≠ []

theorem stepEvent_outRegister_inv {handler : ShellTaskLog → ShellTaskBehavior T E}
    {task : String} {s s2 : RunState T E}
    (h : stepEvent handler task s Event.outRegister = some s2) :
    ∃ l rest, s.outPlan = l :: rest ∧ s.outHeld = none ∧
      s2 = { s with outPlan := rest, outHeld := some l,
                    pending := s.pending ++ [ShellTaskLog.Stdout l] } := by
  simp only [stepEvent] at h
  split at h
  · next l rest heq1 heq2 => exact ⟨l, rest, heq1, heq2, (Option.some.inj h).symm⟩
  · cases h

theorem stepEvent_outSend_inv {handler : ShellTaskLog → ShellTaskBehavior T E}
    {task : String} {s s2 : RunState T E}
    (h : stepEvent handler task s Event.outSend = some s2) :
    ∃ l, s.outHeld = some l ∧
      s2 = { s with outHeld := none, channel := s.channel ++ [ShellTaskLog.Stdout l] } := by
  simp only [stepEvent] at h
  split at h
  · next l heq => exact ⟨l, heq, (Option.some.inj h).symm⟩
  · cases h

theorem stepEvent_errRegister_inv {handler : ShellTaskLog → ShellTaskBehavior T E}
    {task : String} {s s2 : RunState T E}
    (h : stepEvent handler task s Event.errRegister = some s2) :
    ∃ l rest, s.errPlan = l :: rest ∧ s.errHeld = none ∧
      s2 = { s with errPlan := rest, errHeld := some l,
                    pending := s.pending ++ [ShellTaskLog.Stderr l] } := by
  simp only [stepEvent] at h
  split at h
  · next l rest heq1 heq2 => exact ⟨l, rest, heq1, heq2, (Option.some.inj h).symm⟩
  · cases h

theorem stepEvent_errSend_inv {handler : ShellTaskLog → ShellTaskBehavior T E}
    {task : String} {s s2 : RunState T E}
    (h : stepEvent handler task s Event.errSend = some s2) :
    ∃ l, s.errHeld = some l ∧
      s2 = { s with errHeld := none, channel := s.channel ++ [ShellTaskLog.Stderr l] } := by
  simp only [stepEvent] at h
  split at h
  · next l heq => exact ⟨l, heq, (Option.some.inj h).symm⟩
  · cases h

theorem stepEvent_dispatch_inv {handler : ShellTaskLog → ShellTaskBehavior T E}
    {task : String} {poisoned : Bool} {s s2 : RunState T E}
    (h : stepEvent handler task s (Event.dispatch poisoned) = some s2) :
    s.stopped = false ∧
    ∃ r rest, s.channel = r :: rest ∧
      ((poisoned = true ∧ s.slot = none ∧
         s2 = { dispatchBase r rest s with
                slot := some (Except.error (UserError.poisonedLog task)),
                stopped := true, poisonHit := true })
       ∨ (poisoned = true ∧ s.slot ≠ none ∧
           s2 = { dispatchBase r rest s with poisonHit := true })
       ∨ (poisoned = false ∧ handler r = ShellTaskBehavior.Passthrough ∧
           s2 = dispatchStep r rest s)
       ∨ (∃ v, poisoned = false ∧ handler r = ShellTaskBehavior.EarlyReturn v ∧
           s.slot = none ∧
           s2 = { dispatchStep r rest s with slot := some v, stopped := true })
       ∨ (∃ v, poisoned = false ∧ handler r = ShellTaskBehavior.EarlyReturn v ∧
           s.slot ≠ none ∧ s2 = dispatchStep r rest s)) := by
  simp only [stepEvent] at h
  split at h
  · cases h
  · next hstop =>
    refine ⟨by simpa using hstop, ?_⟩
    split at h
    · cases h
    · next r rest heq =>
      refine ⟨r, rest, heq, ?_⟩
      split at h
      · next hpois =>
        split at h
        · next hslot =>
          exact Or.inl ⟨hpois, Option.isNone_iff_eq_none.mp hslot, (Option.some.inj h).symm⟩
        · next hslot =>
          refine Or.inr (Or.inl ⟨hpois, ?_, (Option.some.inj h).symm⟩)
          intro hn
          exact hslot (by simp [hn])
      · next hpois =>
        have hpois2 : poisoned = false := by simpa using hpois
        split at h
        · next hbeh =>
          exact Or.inr (Or.inr (Or.inl ⟨hpois2, hbeh, (Option.some.inj h).symm⟩))
        · next v hbeh =>
          split at h
          · next hslot =>
            exact Or.inr (Or.inr (Or.inr (Or.inl
              ⟨v, hpois2, hbeh, Option.isNone_iff_eq_none.mp hslot, (Option.some.inj h).symm⟩)))
          · next hslot =>
            refine Or.inr (Or.inr (Or.inr (Or.inr ⟨v, hpois2, hbeh, ?_, (Option.some.inj h).symm⟩)))
            intro hn
            exact hslot (by simp [hn])

theorem position_eq_none_forall (p : ShellTaskLog → Bool) :
    ∀ l : List ShellTaskLog, position p l = none → ∀ x ∈ l, p x = false := by
  intro l
  induction l with
  | nil => intro _ x hx; cases hx
  | cons a as ih =>
    intro h x hx
    simp only [position] at h
    split at h
    · cases h
    · next hpa =>
      rcases List.mem_cons.mp hx with rfl | hx2
      · simpa using hpa
      · exact ih (Option.map_eq_none'.mp h) x hx2

theorem position_some_facts (p : ShellTaskLog → Bool) :
    ∀ (l : List ShellTaskLog) (i : Nat), position p l = some i →
      (l.eraseIdx i).length + 1 = l.length ∧
      (l.eraseIdx i).countP p + 1 = l.countP p ∧
      0 < l.countP p ∧
      ∀ q : ShellTaskLog → Bool, (∀ x, p x = true → q x = false) →
        (l.eraseIdx i).countP q = l.countP q := by
  intro l
  induction l with
  | nil => intro i h; cases h
  | cons a as ih =>
    intro i h
    simp only [position] at h
    split at h
    · next hpa =>
      cases h
      refine ⟨by simp, ?_, ?_, ?_⟩
      · simp [List.countP_cons, hpa]
      · simp [List.countP_cons, hpa]
      · intro q hq
        simp [List.countP_cons, hq a hpa]
    · next hpa =>
      rcases Option.map_eq_some'.mp h with ⟨j, hj, rfl⟩
      obtain ⟨h1, h2, h3, h4⟩ := ih j hj
      have hpa2 : p a = false := by simpa using hpa
      refine ⟨?_, ?_, ?_, ?_⟩
      · simp only [List.eraseIdx_cons_succ, List.length_cons]
        omega
      · simpa [List.countP_cons, hpa2] using h2
      · simpa [List.countP_cons, hpa2] using h3
      · intro q hq
        simp only [List.eraseIdx_cons_succ, List.countP_cons]
        rw [h4 q hq]

theorem isStdout_of_not_isStderr (r : ShellTaskLog) (h : isStderrRec r = false) :
    isStdoutRec r = true := by
  cases r with
  | Stdout l => rfl
  | Stderr l => simp [isStderrRec] at h

theorem isStdout_false_of_isStderr (r : ShellTaskLog) (h : isStderrRec r = true) :
    isStdoutRec r = false := by
  cases r with
  | Stdout l => simp [isStderrRec] at h
  | Stderr l => rfl

theorem removeOnePending_length (p : List ShellTaskLog) (h : p ≠ []) :
    (removeOnePending p).length + 1 = p.length := by
  unfold removeOnePending
  cases h1 : position isStderrRec p with
  | some i => exact (position_some_facts _ _ _ h1).1
  | none =>
    cases h2 : position isStdoutRec p with
    | some i => exact (position_some_facts _ _ _ h2).1
    | none =>
      cases p with
      | nil => exact absurd rfl h
      | cons a as =>
        have ha := position_eq_none_forall _ _ h1 a (by simp)
        have hb := position_eq_none_forall _ _ h2 a (by simp)
        cases a <;> simp [isStderrRec, isStdoutRec] at ha hb

theorem removeOnePending_counts (p : List ShellTaskLog) (hne : p ≠ []) :
    (0 < stderrCount p →
      stderrCount (removeOnePending p) + 1 = stderrCount p ∧
      stdoutCount (removeOnePending p) = stdoutCount p) ∧
    (stderrCount p = 0 →
      stderrCount (removeOnePending p) = 0 ∧
      stdoutCount (removeOnePending p) + 1 = stdoutCount p) := by
  unfold removeOnePending stderrCount stdoutCount
  cases h1 : position isStderrRec p with
  | some i =>
    obtain ⟨_, h2, h3, h4⟩ := position_some_facts _ _ _ h1
    constructor
    · intro _
      exact ⟨h2, h4 isStdoutRec isStdout_false_of_isStderr⟩
    · intro h0
      rw [h0] at h3
      cases h3
  | none =>
    have hzero : p.countP isStderrRec = 0 := by
      rw [List.countP_eq_zero]
      intro a ha
      simp [position_eq_none_forall _ _ h1 a ha]
    cases h2 : position isStdoutRec p with
    | some i =>
      obtain ⟨_, h3, h4, h5⟩ := position_some_facts _ _ _ h2
      have herase : (p.eraseIdx i).countP isStderrRec = 0 := by
        rw [List.countP_eq_zero] at hzero ⊢
        intro a ha
        exact hzero a (List.mem_of_mem_eraseIdx ha)
      constructor
      · intro h0
        rw [hzero] at h0
        cases h0
      · intro _
        exact ⟨herase, h3⟩
    | none =>
      cases p with
      | nil => exact absurd rfl hne
      | cons a as =>
        have ha := position_eq_none_forall _ _ h1 a (by simp)
        have hb := position_eq_none_forall _ _ h2 a (by simp)
        cases a <;> simp [isStderrRec, isStdoutRec] at ha hb

theorem stuck_step {handler : ShellTaskLog → ShellTaskBehavior T E} {task : String}
    {s s2 : RunState T E} {e : Event}
    (hstop : s.stopped = true) (hpend : s.pending ≠ [])
    (hstep : stepEvent handler task s e = some s2) :
    s2.stopped = true ∧ s2.pending ≠ [] := by
  cases e with
  | outRegister =>
    obtain ⟨l, rest, _, _, rfl⟩ := stepEvent_outRegister_inv hstep
    exact ⟨hstop, by simp⟩
  | outSend =>
    obtain ⟨l, _, rfl⟩ := stepEvent_outSend_inv hstep
    exact ⟨hstop, hpend⟩
  | errRegister =>
    obtain ⟨l, rest, _, _, rfl⟩ := stepEvent_errRegister_inv hstep
    exact ⟨hstop, by simp⟩
  | errSend =>
    obtain ⟨l, _, rfl⟩ := stepEvent_errSend_inv hstep
    exact ⟨hstop, hpend⟩
  | dispatch poisoned =>
    obtain ⟨hrun, _⟩ := stepEvent_dispatch_inv hstep
    rw [hstop] at hrun
    cases hrun

theorem stuck_trace {handler : ShellTaskLog → ShellTaskBehavior T E} {task : String}
    {s : RunState T E}
    (hstop : s.stopped = true) (hpend : s.pending ≠ []) :
    stuckForever handler task s := by
  intro events
  induction events generalizing s with
  | nil =>
    intro s2 h
    simp only [runTrace] at h
    exact (Option.some.inj h) ▸ hpend
  | cons e es ih =>
    intro s2 h
    simp only [runTrace] at h
    split at h
    · next s1 hstep =>
      obtain ⟨h1, h2⟩ := stuck_step hstop hpend hstep
      exact ih h1 h2 s2 h
    · cases h

theorem slot_step {handler : ShellTaskLog → ShellTaskBehavior T E} {task : String}
    {s s2 : RunState T E} {e : Event} {v : Except (UserError E) T}
    (hslot : s.slot = some v) (hstep : stepEvent handler task s e = some s2) :
    s2.slot = some v := by
  cases e with
  | outRegister =>
    obtain ⟨l, rest, _, _, rfl⟩ := stepEvent_outRegister_inv hstep
    exact hslot
  | outSend =>
    obtain ⟨l, _, rfl⟩ := stepEvent_outSend_inv hstep
    exact hslot
  | errRegister =>
    obtain ⟨l, rest, _, _, rfl⟩ := stepEvent_errRegister_inv hstep
    exact hslot
  | errSend =>
    obtain ⟨l, _, rfl⟩ := stepEvent_errSend_inv hstep
    exact hslot
  | dispatch poisoned =>
    obtain ⟨_, r, rest, _, hcase⟩ := stepEvent_dispatch_inv hstep
    rcases hcase with ⟨_, hnone, _⟩ | ⟨_, _, rfl⟩ | ⟨_, _, rfl⟩ | ⟨w, _, _, hnone, _⟩ | ⟨w, _, _, _, rfl⟩
    · rw [hslot] at hnone; cases hnone
    · exact hslot
    · exact hslot
    · rw [hslot] at hnone; cases hnone
    · exact hslot

@[simp] theorem stdoutTexts_nil : stdoutTexts [] = [] := rfl

@[simp] theorem stderrTexts_nil : stderrTexts [] = [] := rfl

@[simp] theorem stdoutTexts_append (l1 l2 : List ShellTaskLog) :
    stdoutTexts (l1 ++ l2) = stdoutTexts l1 ++ stdoutTexts l2 :=
  List.filterMap_append l1 l2 _

@[simp] theorem stderrTexts_append (l1 l2 : List ShellTaskLog) :
    stderrTexts (l1 ++ l2) = stderrTexts l1 ++ stderrTexts l2 :=
  List.filterMap_append l1 l2 _

@[simp] theorem stdoutTexts_cons_stdout (t : String) (l : List ShellTaskLog) :
    stdoutTexts (ShellTaskLog.Stdout t :: l) = t :: stdoutTexts l := rfl

@[simp] theorem stdoutTexts_cons_stderr (t : String) (l : List ShellTaskLog) :
    stdoutTexts (ShellTaskLog.Stderr t :: l) = stdoutTexts l := rfl

@[simp] theorem stderrTexts_cons_stdout (t : String) (l : List ShellTaskLog) :
    stderrTexts (ShellTaskLog.Stdout t :: l) = stderrTexts l := rfl

@[simp] theorem stderrTexts_cons_stderr (t : String) (l : List ShellTaskLog) :
    stderrTexts (ShellTaskLog.Stderr t :: l) = t :: stderrTexts l := rfl

@[simp] theorem dispatchBase_outPlan (r : ShellTaskLog) (rest : List ShellTaskLog)
    (s : RunState T E) : (dispatchBase r rest s).outPlan = s.outPlan := rfl

@[simp] theorem dispatchBase_outHeld (r : ShellTaskLog) (rest : List ShellTaskLog)
    (s : RunState T E) : (dispatchBase r rest s).outHeld = s.outHeld := rfl

@[simp] theorem dispatchBase_errPlan (r : ShellTaskLog) (rest : List ShellTaskLog)
    (s : RunState T E) : (dispatchBase r rest s).errPlan = s.errPlan := rfl

@[simp] theorem dispatchBase_errHeld (r : ShellTaskLog) (rest : List ShellTaskLog)
    (s : RunState T E) : (dispatchBase r rest s).errHeld = s.errHeld := rfl

@[simp] theorem dispatchBase_pending (r : ShellTaskLog) (rest : List ShellTaskLog)
    (s : RunState T E) : (dispatchBase r rest s).pending = s.pending := rfl

@[simp] theorem dispatchBase_channel (r : ShellTaskLog) (rest : List ShellTaskLog)
    (s : RunState T E) : (dispatchBase r rest s).channel = rest := rfl

@[simp] theorem dispatchBase_slot (r : ShellTaskLog) (rest : List ShellTaskLog)
    (s : RunState T E) : (dispatchBase r rest s).slot = s.slot := rfl

@[simp] theorem dispatchBase_stopped (r : ShellTaskLog) (rest : List ShellTaskLog)
    (s : RunState T E) : (dispatchBase r rest s).stopped = s.stopped := rfl

@[simp] theorem dispatchBase_received (r : ShellTaskLog) (rest : List ShellTaskLog)
    (s : RunState T E) : (dispatchBase r rest s).received = s.received ++ [r] := rfl

@[simp] theorem dispatchBase_poisonHit (r : ShellTaskLog) (rest : List ShellTaskLog)
    (s : RunState T E) : (dispatchBase r rest s).poisonHit = s.poisonHit := rfl

@[simp] theorem dispatchBase_stdout_lines (r : ShellTaskLog) (rest : List ShellTaskLog)
    (s : RunState T E) :
    (dispatchBase r rest s).stdout_lines = s.stdout_lines ++ stdoutTexts [r] := by
  cases r <;> simp [dispatchBase, stdoutTexts]

@[simp] theorem dispatchBase_stderr_lines (r : ShellTaskLog) (rest : List ShellTaskLog)
    (s : RunState T E) :
    (dispatchBase r rest s).stderr_lines = s.stderr_lines ++ stderrTexts [r] := by
  cases r <;> simp [dispatchBase, stderrTexts]

/-- The inductive invariant of a run, relating the shared state to the
planned emissions.  `outDecomp`/`errDecomp` say each stream's lines are
conserved along the pipeline collector-channel-reader in emission order;
`outBuf`/`errBuf` say the collectors hold exactly the texts of the received
records, split by stream; `count` is the pending-list accounting (one entry
per line registered and not yet dropped by the dispatcher; a poisoned
iteration drops nothing, hence the `poisonHit` surplus); `disp` describes
the dispatcher worker: running with an empty result slot and only
passthrough records seen, or stopped by an early return on the last received
record, or stopped by the poisoned-lock branch. -/
structure Inv (handler : ShellTaskLog → ShellTaskBehavior T E) (task : String)
    (outL errL : List String) (s : RunState T E) : Prop where
  outDecomp : s.stdout_lines ++ stdoutTexts s.channel ++ s.outHeld.toList ++ s.outPlan = outL
  errDecomp : s.stderr_lines ++ stderrTexts s.channel ++ s.errHeld.toList ++ s.errPlan = errL
  outBuf : s.stdout_lines = stdoutTexts s.received
  errBuf : s.stderr_lines = stderrTexts s.received
  count : s.pending.length =
    s.channel.length + s.outHeld.toList.length + s.errHeld.toList.length +
      cond s.poisonHit 1 0
  disp :
    (s.stopped = false ∧ s.poisonHit = false ∧ s.slot = none ∧
      ∀ r ∈ s.received, handler r = ShellTaskBehavior.Passthrough)
    ∨ (s.stopped = true ∧ s.poisonHit = false ∧
        ∃ pre fin v, s.received = pre ++ [fin] ∧
          (∀ r ∈ pre, handler r = ShellTaskBehavior.Passthrough) ∧
          handler fin = ShellTaskBehavior.EarlyReturn v ∧ s.slot = some v)
    ∨ (s.stopped = true ∧ s.poisonHit = true ∧
        (∃ pre fin, s.received = pre ++ [fin] ∧
          ∀ r ∈ pre, handler r = ShellTaskBehavior.Passthrough) ∧
        s.slot = some (Except.error (UserError.poisonedLog task)))

theorem inv_init (handler : ShellTaskLog → ShellTaskBehavior T E) (task : String)
    (outL errL : List String) : Inv handler task outL errL (initState T E outL errL) := by
  refine ⟨by simp [initState], by simp [initState], rfl, rfl, by simp [initState], ?_⟩
  exact Or.inl ⟨rfl, rfl, rfl, by intro r hr; cases hr⟩

theorem inv_step {handler : ShellTaskLog → ShellTaskBehavior T E} {task : String}
    {outL errL : List String} {s s2 : RunState T E} {e : Event}
    (hs : Inv handler task outL errL s)
    (hstep : stepEvent handler task s e = some s2) :
    Inv handler task outL errL s2 := by
  obtain ⟨hOD, hED, hOB, hEB, hC, hD⟩ := hs
  cases e with
  | outRegister =>
    obtain ⟨l, rest, hplan, hheld, rfl⟩ := stepEvent_outRegister_inv hstep
    rw [hplan, hheld] at hOD
    rw [hheld] at hC
    refine ⟨?_, hED, hOB, hEB, ?_, hD⟩
    · simpa using hOD
    · simp only [List.length_append]
      simp at hC ⊢
      omega
  | outSend =>
    obtain ⟨l, hheld, rfl⟩ := stepEvent_outSend_inv hstep
    rw [hheld] at hOD hC
    refine ⟨?_, ?_, hOB, hEB, ?_, hD⟩
    · simpa using hOD
    · simpa using hED
    · simp at hC ⊢
      omega
  | errRegister =>
    obtain ⟨l, rest, hplan, hheld, rfl⟩ := stepEvent_errRegister_inv hstep
    rw [hplan, hheld] at hED
    rw [hheld] at hC
    refine ⟨hOD, ?_, hOB, hEB, ?_, hD⟩
    · simpa using hED
    · simp only [List.length_append]
      simp at hC ⊢
      omega
  | errSend =>
    obtain ⟨l, hheld, rfl⟩ := stepEvent_errSend_inv hstep
    rw [hheld] at hED hC
    refine ⟨?_, ?_, hOB, hEB, ?_, hD⟩
    · simpa using hOD
    · simpa using hED
    · simp at hC ⊢
      omega
  | dispatch poisoned =>
    obtain ⟨hrun, r, rest, hchan, hcase⟩ := stepEvent_dispatch_inv hstep
    have hfirst :
        s.poisonHit = false ∧ s.slot = none ∧
        ∀ x ∈ s.received, handler x = ShellTaskBehavior.Passthrough := by
      rcases hD with ⟨_, h1, h2, h3⟩ | ⟨h1, _⟩ | ⟨h1, _⟩
      · exact ⟨h1, h2, h3⟩
      · rw [hrun] at h1; cases h1
      · rw [hrun] at h1; cases h1
    obtain ⟨hph, hslot, hall⟩ := hfirst
    rw [hchan] at hOD hED hC
    rw [hph] at hC
    have hpne : s.pending ≠ [] := by
      intro hnil
      rw [hnil] at hC
      simp at hC
      omega
    have hrem := removeOnePending_length s.pending hpne
    rcases hcase with ⟨_, _, rfl⟩ | ⟨_, hne, _⟩ | ⟨_, hbeh, rfl⟩ |
      ⟨v, _, hbeh, _, rfl⟩ | ⟨v, _, hbeh, hne, _⟩
    · refine ⟨?_, ?_, ?_, ?_, ?_, ?_⟩
      · simp only [RunState.stdout_lines, dispatchBase_stdout_lines]
        cases r <;> simp_all [stdoutTexts]
      · simp only [RunState.stderr_lines, dispatchBase_stderr_lines]
        cases r <;> simp_all [stderrTexts]
      · cases r <;> simp_all
      · cases r <;> simp_all
      · simp only [RunState.pending, RunState.channel, dispatchBase_pending,
          dispatchBase_channel]
        simp at hC ⊢
        omega
      · exact Or.inr (Or.inr ⟨rfl, rfl, ⟨s.received, r, by simp, hall⟩, rfl⟩)
    · exact absurd hslot hne
    · refine ⟨?_, ?_, ?_, ?_, ?_, ?_⟩
      · simp only [dispatchStep, RunState.stdout_lines, dispatchBase_stdout_lines]
        cases r <;> simp_all [stdoutTexts]
      · simp only [dispatchStep, RunState.stderr_lines, dispatchBase_stderr_lines]
        cases r <;> simp_all [stderrTexts]
      · simp only [dispatchStep]
        cases r <;> simp_all
      · simp only [dispatchStep]
        cases r <;> simp_all
      · simp only [dispatchStep, RunState.pending, RunState.channel,
          dispatchBase_channel]
        simp [hph] at hC ⊢
        omega
      · refine Or.inl ⟨by simpa [dispatchStep] using hrun, by simpa [dispatchStep] using hph, by simpa [dispatchStep] using hslot, ?_⟩
        intro x hx
        simp only [dispatchStep, dispatchBase_received] at hx
        rcases List.mem_append.mp hx with hx2 | hx2
        · exact hall x hx2
        · rw [List.mem_singleton.mp hx2]
          exact hbeh
    · refine ⟨?_, ?_, ?_, ?_, ?_, ?_⟩
      · simp only [dispatchStep, RunState.stdout_lines, dispatchBase_stdout_lines]
        cases r <;> simp_all [stdoutTexts]
      · simp only [dispatchStep, RunState.stderr_lines, dispatchBase_stderr_lines]
        cases r <;> simp_all [stderrTexts]
      · simp only [dispatchStep]
        cases r <;> simp_all
      · simp only [dispatchStep]
        cases r <;> simp_all
      · simp only [dispatchStep, RunState.pending, RunState.channel,
          dispatchBase_channel]
        simp [hph] at hC ⊢
        omega
      · exact Or.inr (Or.inl ⟨rfl, by simpa [dispatchStep] using hph,
          s.received, r, v, by simp [dispatchStep], hall, hbeh, rfl⟩)
    · exact absurd hslot hne

theorem inv_trace {handler : ShellTaskLog → ShellTaskBehavior T E} {task : String}
    {outL errL : List String} {s : RunState T E} {events : List Event}
    (h : runTrace handler task (initState T E outL errL) events = some s) :
    Inv handler task outL errL s := by
  suffices haux : ∀ (events : List Event) (s0 s : RunState T E),
      Inv handler task outL errL s0 →
      runTrace handler task s0 events = some s → Inv handler task outL errL s by
    exact haux events _ s (inv_init handler task outL errL) h
  intro evs
  induction evs with
  | nil =>
    intro s0 s h0 hr
    simp only [runTrace] at hr
    exact (Option.some.inj hr) ▸ h0
  | cons e es ih =>
    intro s0 s h0 hr
    simp only [runTrace] at hr
    split at hr
    · next s1 hstep => exact ih s1 s (inv_step h0 hstep) hr
    · cases hr

theorem toList_length_zero {α : Type} : ∀ o : Option α, o.toList.length = 0 → o = none
  | none, _ => rfl
  | some a, h => by simp at h

/-- In any reachable state whose pending list is empty, the channel is also
empty, neither reader holds an unsent line, and no iteration ever found the
lock poisoned.  This is what the drain barrier of `src/task/mod.rs` lines
245-257 observes when it lets the run proceed to result assembly. -/
theorem drained_facts {handler : ShellTaskLog → ShellTaskBehavior T E} {task : String}
    {outL errL : List String} {s : RunState T E}
    (hinv : Inv handler task outL errL s) (hdrain : s.pending = []) :
    s.channel = [] ∧ s.outHeld = none ∧ s.errHeld = none ∧ s.poisonHit = false := by
  have hC := hinv.count
  rw [hdrain] at hC
  simp only [List.length_nil] at hC
  have hz : s.channel.length = 0 ∧ s.outHeld.toList.length = 0 ∧
      s.errHeld.toList.length = 0 ∧ (cond s.poisonHit 1 0 : Nat) = 0 := by omega
  refine ⟨List.length_eq_zero.mp hz.1, toList_length_zero _ hz.2.1,
    toList_length_zero _ hz.2.2.1, ?_⟩
  cases hpz : s.poisonHit with
  | false => rfl
  | true =>
    have := hz.2.2.2
    rw [hpz] at this
    cases this

/-- C5: constructing a `ShellTask` from an empty command string fails with
`InvalidTask`, and so does constructing one whose first space-separated
token does not resolve to an executable; in both cases the failure happens
inside `new` (a pure function in this embedding: no spawn occurs and no
state is touched).  The hypothesis states that the first token of the
command does not resolve; for the empty command that token is the empty
string, which no executable probe resolves. -/
theorem c5_new_invalid_task {E : Type} (resolves : String → Bool) (dir command : String)
    (hres : resolves ((splitChar ' ' command).headI) = false) :
    ShellTask.new (E := E) resolves (some dir) command =
      Except.error (Error.InvalidTask command
        ("\x27" ++ (splitChar ' ' command).headI ++ "\x27 is not installed on this machine")) := by
  unfold ShellTask.new
  cases hsp : splitChar ' ' command with
  | nil => exact absurd hsp (splitChar_ne_nil ' ' command)
  | cons bin rest =>
    rw [hsp] at hres
    simp only [List.headI] at hres
    simp [hres, List.headI]

/-- C5 witness: the empty command and a command with an unresolvable first
token are both rejected with `InvalidTask`. -/
theorem c5_new_invalid_task_witness :
    ShellTask.new (E := Unit) (fun _ => false) (some "/") "" =
      Except.error (Error.InvalidTask "" "\x27\x27 is not installed on this machine") ∧
    ShellTask.new (E := Unit) (fun _ => false) (some "/") "no-such-tool --flag" =
      Except.error (Error.InvalidTask "no-such-tool --flag"
        "\x27no-such-tool\x27 is not installed on this machine") :=
  ⟨c5_new_invalid_task (E := Unit) (fun _ => false) "/" "" rfl,
   c5_new_invalid_task (E := Unit) (fun _ => false) "/" "no-such-tool --flag" rfl⟩

/-- C6: for every successfully constructed task, `descriptor` returns the
original command text verbatim and `bash_descriptor` returns that text
prefixed with a dollar sign and a single space; both are pure functions of
the stored command text. -/
theorem c6_descriptor_verbatim {E : Type} (resolves : String → Bool) (cwd : Option String)
    (command : String) (t : ShellTask)
    (hnew : ShellTask.new (E := E) resolves cwd command = Except.ok t) :
    t.descriptor = command ∧ t.bash_descriptor = "$ " ++ command := by
  unfold ShellTask.new at hnew
  cases cwd with
  | none => cases hnew
  | some dir =>
    cases hsp : splitChar ' ' command with
    | nil => rw [hsp] at hnew; cases hnew
    | cons bin rest =>
      rw [hsp] at hnew
      by_cases hres : resolves bin
      · simp only [hres, if_true] at hnew
        injection hnew with h
        rw [← h]
        exact ⟨rfl, rfl⟩
      · simp [hres] at hnew

/-- C6 witness at a concrete command. -/
theorem c6_descriptor_verbatim_witness :
    ShellTask.descriptor
        { bin := "echo", args := ["hi"], current_dir := "/", envs := [],
          full_command := "echo hi" } = "echo hi" ∧
    ShellTask.bash_descriptor
        { bin := "echo", args := ["hi"], current_dir := "/", envs := [],
          full_command := "echo hi" } = "$ " ++ "echo hi" :=
  c6_descriptor_verbatim (E := Unit) (fun _ => true) (some "/") "echo hi"
    { bin := "echo", args := ["hi"], current_dir := "/", envs := [],
      full_command := "echo hi" } rfl

/-- C10: splitting any string on a single space yields at least one token,
so the zero-token branch of `ShellTask::new` (reason text about an empty
string) is unreachable: every `InvalidTask` error produced by `new` carries
the resolution-check reason instead, and in particular the empty command is
rejected by the executable-resolution check. -/
theorem c10_empty_branch_unreachable {E : Type} (resolves : String → Bool)
    (dir command : String) (hres : resolves "" = false) :
    1 ≤ (splitChar ' ' command).length ∧
    (∀ t reason, ShellTask.new (E := E) resolves (some dir) command =
        Except.error (Error.InvalidTask t reason) →
      reason = "\x27" ++ (splitChar ' ' command).headI ++ "\x27 is not installed on this machine") ∧
    ShellTask.new (E := E) resolves (some dir) "" =
      Except.error (Error.InvalidTask "" "\x27\x27 is not installed on this machine") := by
  refine ⟨?_, ?_, ?_⟩
  · cases hsp : splitChar ' ' command with
    | nil => exact absurd hsp (splitChar_ne_nil ' ' command)
    | cons bin rest => simp
  · intro t reason herr
    unfold ShellTask.new at herr
    cases hsp : splitChar ' ' command with
    | nil => exact absurd hsp (splitChar_ne_nil ' ' command)
    | cons bin rest =>
      rw [hsp] at herr
      by_cases hr : resolves bin
      · simp [hr] at herr
      · simp only [hr, if_false] at herr
        injection herr with h
        injection h with h1 h2
        rw [← h2]
        simp [List.headI]
  · unfold ShellTask.new
    rw [splitChar_empty]
    simp [hres]

/-- C10 witness with a concrete unresolvable probe. -/
theorem c10_empty_branch_unreachable_witness :
    1 ≤ (splitChar ' ' "ls -l").length ∧
    (∀ t reason, ShellTask.new (E := Unit) (fun _ => false) (some "/") "ls -l" =
        Except.error (Error.InvalidTask t reason) →
      reason = "\x27" ++ (splitChar ' ' "ls -l").headI ++ "\x27 is not installed on this machine") ∧
    ShellTask.new (E := Unit) (fun _ => false) (some "/") "" =
      Except.error (Error.InvalidTask "" "\x27\x27 is not installed on this machine") :=
  c10_empty_branch_unreachable (E := Unit) (fun _ => false) "/" "ls -l" rfl

/-- C7: the result slot is a set-at-most-once cell.  Both writers (the
early-return path at `src/task/mod.rs` lines 207-213 and the poisoned-lock
path at lines 217-222) first check under the lock that the slot is empty, so
the first writer wins; once the slot holds a value, no later step of the run
ever changes it. -/
theorem c7_result_slot_write_once (handler : ShellTaskLog → ShellTaskBehavior T E)
    (task : String) (s : RunState T E) (events : List Event) (s2 : RunState T E)
    (v : Except (UserError E) T)
    (hslot : s.slot = some v)
    (hrun : runTrace handler task s events = some s2) :
    s2.slot = some v := by
  induction events generalizing s with
  | nil =>
    simp only [runTrace] at hrun
    exact (Option.some.inj hrun) ▸ hslot
  | cons e es ih =>
    simp only [runTrace] at hrun
    split at hrun
    · next s1 hstep => exact ih s1 (slot_step hslot hstep) hrun
    · cases hrun

/-- Handler used by several concrete runs: early return with value 7 on any
stdout record, passthrough on stderr records. -/
def erHandler : ShellTaskLog → ShellTaskBehavior Nat Unit
  | ShellTaskLog.Stdout _ => ShellTaskBehavior.EarlyReturn (Except.ok 7)
  | ShellTaskLog.Stderr _ => ShellTaskBehavior.Passthrough

/-- A state whose result slot is already populated. -/
def c7Start : RunState Nat Unit :=
  { outPlan := ["x"], outHeld := none, errPlan := [], errHeld := none,
    pending := [], channel := [], stdout_lines := [], stderr_lines := [],
    slot := some (Except.ok 3), stopped := true, received := [], poisonHit := false }

/-- The state after one further reader step from `c7Start`. -/
def c7End : RunState Nat Unit :=
  { outPlan := [], outHeld := some "x", errPlan := [], errHeld := none,
    pending := [ShellTaskLog.Stdout "x"], channel := [], stdout_lines := [],
    stderr_lines := [], slot := some (Except.ok 3), stopped := true,
    received := [], poisonHit := false }

/-- C7 witness: a populated slot survives a further step of the run. -/
theorem c7_result_slot_write_once_witness : c7End.slot = some (Except.ok 3) :=
  c7_result_slot_write_once erHandler "cmd" c7Start [Event.outRegister] c7End
    (Except.ok 3) rfl rfl

/-- Always-passthrough handler on unit types. -/
def ptHandler : ShellTaskLog → ShellTaskBehavior Unit Unit :=
  fun _ => ShellTaskBehavior.Passthrough

/-- Events of a run in which a stderr line and a stdout line are registered,
the stdout line is sent first, and the dispatcher receives it. -/
def c4Events : List Event :=
  [Event.errRegister, Event.outRegister, Event.outSend, Event.dispatch false]

/-- The state just before the dispatch in `c4Events`. -/
def c4Mid : RunState Unit Unit :=
  { outPlan := [], outHeld := none, errPlan := [], errHeld := some "e",
    pending := [ShellTaskLog.Stderr "e", ShellTaskLog.Stdout "o"],
    channel := [ShellTaskLog.Stdout "o"], stdout_lines := [], stderr_lines := [],
    slot := none, stopped := false, received := [], poisonHit := false }

/-- The state after `c4Events`. -/
def c4Final : RunState Unit Unit :=
  { outPlan := [], outHeld := none, errPlan := [], errHeld := some "e",
    pending := [ShellTaskLog.Stdout "o"], channel := [], stdout_lines := ["o"],
    stderr_lines := [], slot := none, stopped := false,
    received := [ShellTaskLog.Stdout "o"], poisonHit := false }

/-- C4 is false as stated: in this reachable run the dispatcher receives a
`Stdout` record while the pending set holds one `Stderr` and one `Stdout`
entry, and it removes the `Stderr` entry (the code scans for any `Stderr`
entry first regardless of the received record, `src/task/mod.rs` lines
195-205).  Same-variant removal would have left `[Stderr "e"]`; the code
leaves `[Stdout "o"]`, so the accounting is not per-stream. -/
theorem c4_variant_removal_cex :
    runTrace ptHandler "cmd" (initState Unit Unit ["o"] ["e"]) c4Events = some c4Final ∧
    c4Final.received = [ShellTaskLog.Stdout "o"] ∧
    c4Final.pending = [ShellTaskLog.Stdout "o"] ∧
    removeOnePending [ShellTaskLog.Stderr "e", ShellTaskLog.Stdout "o"] =
      [ShellTaskLog.Stdout "o"] ∧
    stderrCount [ShellTaskLog.Stderr "e", ShellTaskLog.Stdout "o"] = 1 ∧
    stdoutCount c4Final.pending = 1 :=
  ⟨rfl, rfl, rfl, rfl, rfl, rfl⟩

/-- C4 amended: on each record the dispatcher receives while the pending set
is nonempty, it removes exactly one entry, preferring the first `Stderr`
entry and falling back to the first `Stdout` entry, irrespective of the
received record's variant.  This decrements the stderr tally if it is
positive and otherwise the stdout tally, i.e. it is equivalent to
decrementing one combined counter, not a per-stream counter of the received
record's stream. -/
theorem c4_removal_amended (handler : ShellTaskLog → ShellTaskBehavior T E)
    (task : String) (s s2 : RunState T E)
    (hne : s.pending ≠ [])
    (hstep : stepEvent handler task s (Event.dispatch false) = some s2) :
    s2.pending = removeOnePending s.pending ∧
    s2.pending.length + 1 = s.pending.length ∧
    (0 < stderrCount s.pending →
      stderrCount s2.pending + 1 = stderrCount s.pending ∧
      stdoutCount s2.pending = stdoutCount s.pending) ∧
    (stderrCount s.pending = 0 →
      stderrCount s2.pending = 0 ∧
      stdoutCount s2.pending + 1 = stdoutCount s.pending) := by
  have hpend : s2.pending = removeOnePending s.pending := by
    obtain ⟨_, r, rest, _, hcase⟩ := stepEvent_dispatch_inv hstep
    rcases hcase with ⟨hp, _⟩ | ⟨hp, _⟩ | ⟨_, _, rfl⟩ | ⟨v, _, _, _, rfl⟩ | ⟨v, _, _, _, rfl⟩
    · cases hp
    · cases hp
    · rfl
    · rfl
    · rfl
  obtain ⟨hc1, hc2⟩ := removeOnePending_counts s.pending hne
  rw [hpend]
  exact ⟨rfl, removeOnePending_length s.pending hne, hc1, hc2⟩

/-- C4 amended witness: the concrete dispatch from `c4Mid` removes exactly
one entry, the `Stderr` one. -/
theorem c4_removal_amended_witness :
    c4Final.pending = removeOnePending c4Mid.pending ∧
    c4Final.pending.length + 1 = c4Mid.pending.length ∧
    (0 < stderrCount c4Mid.pending →
      stderrCount c4Final.pending + 1 = stderrCount c4Mid.pending ∧
      stdoutCount c4Final.pending = stdoutCount c4Mid.pending) ∧
    (stderrCount c4Mid.pending = 0 →
      stderrCount c4Final.pending = 0 ∧
      stdoutCount c4Final.pending + 1 = stdoutCount c4Mid.pending) :=
  c4_removal_amended ptHandler "cmd" c4Mid c4Final (by simp [c4Mid]) rfl

/-- The state after the single event `outRegister` of a run whose child
emits one stdout line. -/
def c8Final : RunState Unit Unit :=
  { outPlan := [], outHeld := some "a", errPlan := [], errHeld := none,
    pending := [ShellTaskLog.Stdout "a"], channel := [], stdout_lines := [],
    stderr_lines := [], slot := none, stopped := false, received := [],
    poisonHit := false }

/-- C8 is false as stated: a reader registers a record in the pending set
before sending it on the channel (`src/task/runner.rs`; spec section 4.2),
so right after a registration the pending set has one entry while the number
of records sent but not yet handled is zero.  The stated equality fails at
that reachable point. -/
theorem c8_pending_equality_cex :
    runTrace ptHandler "cmd" (initState Unit Unit ["a"] []) [Event.outRegister] =
      some c8Final ∧
    c8Final.pending.length = 1 ∧
    c8Final.channel.length = 0 ∧
    c8Final.received = [] :=
  ⟨rfl, rfl, rfl, rfl⟩

/-- C8 amended: at every reachable point of a run, the size of the pending
set equals the number of records sent but not yet handled (the channel
content) plus the number of records registered but not yet sent plus one
extra entry if some iteration found the lock poisoned; in particular the
pending count never under-reports the sent-but-unhandled count. -/
theorem c8_pending_accounting_amended (handler : ShellTaskLog → ShellTaskBehavior T E)
    (task : String) (outL errL : List String) (events : List Event) (s : RunState T E)
    (hrun : runTrace handler task (initState T E outL errL) events = some s) :
    s.pending.length =
      s.channel.length + s.outHeld.toList.length + s.errHeld.toList.length +
        cond s.poisonHit 1 0 ∧
    s.channel.length ≤ s.pending.length := by
  have hinv := inv_trace hrun
  have hC := hinv.count
  exact ⟨hC, by omega⟩

/-- C8 amended witness at a concrete trace of one registration. -/
theorem c8_pending_accounting_amended_witness :
    c8Final.pending.length =
      c8Final.channel.length + c8Final.outHeld.toList.length +
        c8Final.errHeld.toList.length + cond c8Final.poisonHit 1 0 ∧
    c8Final.channel.length ≤ c8Final.pending.length :=
  c8_pending_accounting_amended ptHandler "cmd" ["a"] [] [Event.outRegister] c8Final rfl

/-- C1: for every interleaving of a run whose handler returns `Passthrough`
on every record and that reaches the state the drain barrier waits for (both
readers at end of stream, pending list empty), a successful exit status
makes `run` return `CompleteOutput` whose stdout buffer is exactly the
emitted stdout lines in emission order, whose stderr buffer is exactly the
emitted stderr lines in emission order, and whose status is that successful
status. -/
theorem c1_passthrough_complete (handler : ShellTaskLog → ShellTaskBehavior T E)
    (task : String) (outL errL : List String) (events : List Event)
    (status : ExitStatus) (s : RunState T E)
    (hP : ∀ r, handler r = ShellTaskBehavior.Passthrough)
    (hrun : runTrace handler task (initState T E outL errL) events = some s)
    (hdone : readersDone s)
    (hdrain : s.pending = [])
    (hsucc : status.success = true) :
    assemble task status s =
      Except.ok (ShellTaskOutput.CompleteOutput status outL errL) := by
  have hinv := inv_trace hrun
  obtain ⟨hch, hoh, heh, hpz⟩ := drained_facts hinv hdrain
  obtain ⟨hop, _, hep, _⟩ := hdone
  have hslot : s.slot = none := by
    rcases hinv.disp with ⟨_, _, h, _⟩ | ⟨_, _, pre, fin, v, _, _, hfin, _⟩ | ⟨_, hpois, _, _⟩
    · exact h
    · rw [hP fin] at hfin; cases hfin
    · rw [hpz] at hpois; cases hpois
  have hout : s.stdout_lines = outL := by
    have h := hinv.outDecomp
    rw [hch, hoh, hop] at h
    simpa using h
  have herr : s.stderr_lines = errL := by
    have h := hinv.errDecomp
    rw [hch, heh, hep] at h
    simpa using h
  simp [assemble, hsucc, hslot, hout, herr]

/-- The final state of the complete passthrough run of a child emitting one
stdout line. -/
def c1Final : RunState Unit Unit :=
  { outPlan := [], outHeld := none, errPlan := [], errHeld := none,
    pending := [], channel := [], stdout_lines := ["a"], stderr_lines := [],
    slot := none, stopped := false, received := [ShellTaskLog.Stdout "a"],
    poisonHit := false }

/-- A successful exit status. -/
def okStatus : ExitStatus := { code := 0 }

/-- A failing exit status. -/
def failStatus : ExitStatus := { code := 1 }

/-- C1 witness: the concrete passthrough run of a child emitting the single
stdout line "a". -/
theorem c1_passthrough_complete_witness :
    assemble "cmd" okStatus c1Final =
      Except.ok (ShellTaskOutput.CompleteOutput okStatus ["a"] []) :=
  c1_passthrough_complete ptHandler "cmd" ["a"] []
    [Event.outRegister, Event.outSend, Event.dispatch false] okStatus c1Final
    (fun _ => rfl) rfl ⟨rfl, rfl, rfl, rfl⟩ rfl rfl

/-- C2 amended: in every interleaving of a run that reaches the quiescent
state the drain barrier waits for, if the handler returned
`EarlyReturn (Ok v)` on the k-th (and last) record it observed and
`Passthrough` before, and the exit status is successful, then `run` returns
`EarlyReturn` whose buffers are exactly the texts of the first k received
records partitioned by stream in per-stream order, with return value `v`.
The completion hypotheses force the early return to fall on the final
record: otherwise the run never drains (see the counterexample). -/
theorem c2_early_return_amended (handler : ShellTaskLog → ShellTaskBehavior T E)
    (task : String) (outL errL : List String) (events : List Event)
    (status : ExitStatus) (s : RunState T E) (k : Nat) (v : T) (rk : ShellTaskLog)
    (hrun : runTrace handler task (initState T E outL errL) events = some s)
    (hdone : readersDone s)
    (hdrain : s.pending = [])
    (hsucc : status.success = true)
    (hk : s.received.length = k)
    (hpre : ∀ r ∈ s.received.dropLast, handler r = ShellTaskBehavior.Passthrough)
    (hlast : s.received.getLast? = some rk)
    (hrk : handler rk = ShellTaskBehavior.EarlyReturn (Except.ok v)) :
    assemble task status s =
      Except.ok (ShellTaskOutput.EarlyReturn
        (stdoutTexts (s.received.take k)) (stderrTexts (s.received.take k)) v) := by
  have hinv := inv_trace hrun
  obtain ⟨hch, hoh, heh, hpz⟩ := drained_facts hinv hdrain
  have hslot : s.slot = some (Except.ok v) := by
    rcases hinv.disp with ⟨_, _, _, hall⟩ | ⟨_, _, pre, fin, w, heq, hpre2, hfin, hsl⟩ |
      ⟨_, hpois, _, _⟩
    · have hmem : rk ∈ s.received := List.mem_of_mem_getLast? hlast
      rw [hall rk hmem] at hrk
      cases hrk
    · have hlast2 : s.received.getLast? = some fin := by
        rw [heq]
        exact List.getLast?_concat pre
      rw [hlast2] at hlast
      have hfr : fin = rk := Option.some.inj hlast
      rw [hfr, hrk] at hfin
      injection hfin with hw
      rw [hsl, ← hw]
    · rw [hpz] at hpois
      cases hpois
  have htake : s.received.take k = s.received := by
    rw [← hk]
    exact List.take_length s.received
  rw [htake]
  simp [assemble, hsucc, hslot, ← hinv.outBuf, ← hinv.errBuf]

/-- The final state of the complete run in which `erHandler` early-returns
on the single (hence last) record. -/
def erFinal : RunState Nat Unit :=
  { outPlan := [], outHeld := none, errPlan := [], errHeld := none,
    pending := [], channel := [], stdout_lines := ["a"], stderr_lines := [],
    slot := some (Except.ok 7), stopped := true,
    received := [ShellTaskLog.Stdout "a"], poisonHit := false }

/-- C2 amended witness: early return on the first and only record of a
one-line child. -/
theorem c2_early_return_amended_witness :
    assemble "cmd" okStatus erFinal =
      Except.ok (ShellTaskOutput.EarlyReturn ["a"] [] 7) :=
  c2_early_return_amended erHandler "cmd" ["a"] []
    [Event.outRegister, Event.outSend, Event.dispatch false] okStatus erFinal
    1 7 (ShellTaskLog.Stdout "a") rfl ⟨rfl, rfl, rfl, rfl⟩ rfl rfl rfl
    (by intro r hr; simp [erFinal] at hr) rfl rfl

/-- Events of a run of a two-line child in which the handler early-returns
on the first record while the second line is still in flight. -/
def c2CexEvents : List Event :=
  [Event.outRegister, Event.outSend, Event.dispatch false,
   Event.outRegister, Event.outSend]

/-- The state after `c2CexEvents`: the dispatcher broke on the first record,
the second record was then registered and sent, and nothing will ever remove
it from the pending set. -/
def c2CexFinal : RunState Nat Unit :=
  { outPlan := [], outHeld := none, errPlan := [], errHeld := none,
    pending := [ShellTaskLog.Stdout "b"], channel := [ShellTaskLog.Stdout "b"],
    stdout_lines := ["a"], stderr_lines := [],
    slot := some (Except.ok 7), stopped := true,
    received := [ShellTaskLog.Stdout "a"], poisonHit := false }

/-- C2 is false as stated: in this run the handler returns
`EarlyReturn (Ok 7)` on the first record it observes and the child emits a
second line afterwards.  The dispatcher breaks, the second record stays in
the pending set forever (`stuckForever`: no continuation of the run ever
empties it), so the drain barrier of `src/task/mod.rs` lines 245-257 never
clears and `run` never returns the claimed `EarlyReturn` value (nor anything
else), even though the process exits successfully. -/
theorem c2_early_return_cex :
    runTrace erHandler "cmd" (initState Nat Unit ["a", "b"] []) c2CexEvents =
      some c2CexFinal ∧
    erHandler (ShellTaskLog.Stdout "a") = ShellTaskBehavior.EarlyReturn (Except.ok 7) ∧
    c2CexFinal.received = [ShellTaskLog.Stdout "a"] ∧
    readersDone c2CexFinal ∧
    c2CexFinal.pending ≠ [] ∧
    stuckForever erHandler "cmd" c2CexFinal :=
  ⟨rfl, rfl, rfl, ⟨rfl, rfl, rfl, rfl⟩, by simp [c2CexFinal],
   stuck_trace rfl (by simp [c2CexFinal])⟩

/-- C3 amended: whenever a run reaches the quiescent state the drain barrier
waits for and the child exited with a non-success status, `run` returns
`TaskFailure` carrying that status, regardless of the content of the result
slot — any stored early-return outcome is discarded.  (If the handler
early-returned before the last record, the barrier never clears and `run`
returns nothing at all; see the counterexample.) -/
theorem c3_task_failure_amended (handler : ShellTaskLog → ShellTaskBehavior T E)
    (task : String) (outL errL : List String) (events : List Event)
    (status : ExitStatus) (s : RunState T E)
    (hrun : runTrace handler task (initState T E outL errL) events = some s)
    (hdone : readersDone s)
    (hdrain : s.pending = [])
    (hfail : status.success = false) :
    assemble task status s = Except.error (Error.TaskFailure task status) := by
  simp [assemble, hfail]

/-- C3 amended witness: the completed early-return run with a failing exit
status yields `TaskFailure`; the stored `Ok 7` outcome is discarded. -/
theorem c3_task_failure_amended_witness :
    erFinal.slot = some (Except.ok 7) ∧
    assemble "cmd" failStatus erFinal =
      Except.error (Error.TaskFailure "cmd" failStatus) :=
  ⟨rfl, c3_task_failure_amended erHandler "cmd" ["a"] []
    [Event.outRegister, Event.outSend, Event.dispatch false] failStatus erFinal
    rfl ⟨rfl, rfl, rfl, rfl⟩ rfl rfl⟩

/-- C3 is false as stated: in this run the handler early-returned on the
first of two records, the child exits with a failing status, but the pending
set never empties (`stuckForever`), so the drain barrier never clears and
`run` never returns `TaskFailure` (or anything else). -/
theorem c3_task_failure_cex :
    runTrace erHandler "cmd" (initState Nat Unit ["a", "b"] []) c2CexEvents =
      some c2CexFinal ∧
    c2CexFinal.slot = some (Except.ok 7) ∧
    failStatus.success = false ∧
    c2CexFinal.pending ≠ [] ∧
    stuckForever erHandler "cmd" c2CexFinal :=
  ⟨rfl, rfl, rfl, by simp [c2CexFinal], stuck_trace rfl (by simp [c2CexFinal])⟩

/-- C9 amended: if some dispatcher iteration finds the pending-list lock
poisoned, the dispatcher writes the `PoisonedLog` error into the result slot
(first writer wins) and breaks its loop — but the poisoned iteration removes
no pending entry and the stopped dispatcher never removes another, so the
pending set stays nonempty in every continuation of the run
(`stuckForever`), the drain barrier never clears, and the error never
reaches the caller of `run`. -/
theorem c9_poisoned_amended (handler : ShellTaskLog → ShellTaskBehavior T E)
    (task : String) (outL errL : List String) (events : List Event) (s : RunState T E)
    (hrun : runTrace handler task (initState T E outL errL) events = some s)
    (hpois : s.poisonHit = true) :
    s.slot = some (Except.error (UserError.poisonedLog task)) ∧
    s.stopped = true ∧
    stuckForever handler task s := by
  have hinv := inv_trace hrun
  have hfacts : s.stopped = true ∧
      s.slot = some (Except.error (UserError.poisonedLog task)) := by
    rcases hinv.disp with ⟨_, hpz, _⟩ | ⟨_, hpz, _⟩ | ⟨hst, _, _, hsl⟩
    · rw [hpois] at hpz; cases hpz
    · rw [hpois] at hpz; cases hpz
    · exact ⟨hst, hsl⟩
  have hpne : s.pending ≠ [] := by
    have hC := hinv.count
    rw [hpois] at hC
    intro hnil
    rw [hnil] at hC
    simp at hC
  exact ⟨hfacts.2, hfacts.1, stuck_trace hfacts.1 hpne⟩

/-- Events of a run whose single dispatcher iteration finds the lock
poisoned. -/
def c9Events : List Event := [Event.outRegister, Event.outSend, Event.dispatch true]

/-- The state after `c9Events`. -/
def c9Final : RunState Unit Unit :=
  { outPlan := [], outHeld := none, errPlan := [], errHeld := none,
    pending := [ShellTaskLog.Stdout "a"], channel := [],
    stdout_lines := ["a"], stderr_lines := [],
    slot := some (Except.error (UserError.poisonedLog "cmd")), stopped := true,
    received := [ShellTaskLog.Stdout "a"], poisonHit := true }

/-- C9 amended witness: the concrete poisoned run. -/
theorem c9_poisoned_amended_witness :
    c9Final.slot = some (Except.error (UserError.poisonedLog "cmd")) ∧
    c9Final.stopped = true ∧
    stuckForever ptHandler "cmd" c9Final :=
  c9_poisoned_amended ptHandler "cmd" ["a"] [] c9Events c9Final rfl rfl

/-- C9 is false as stated in its last part: the dispatcher does write the
`PoisonedLog` error into the result slot and break, but the poisoned
iteration removes nothing from the pending set, so this run can never reach
the drain barrier's empty observation (`stuckForever`) and the error never
reaches the caller of `run`. -/
theorem c9_poisoned_cex :
    runTrace ptHandler "cmd" (initState Unit Unit ["a"] []) c9Events = some c9Final ∧
    c9Final.slot = some (Except.error (UserError.poisonedLog "cmd")) ∧
    c9Final.stopped = true ∧
    c9Final.pending = [ShellTaskLog.Stdout "a"] ∧
    stuckForever ptHandler "cmd" c9Final :=
  ⟨rfl, rfl, rfl, rfl, stuck_trace rfl (by simp [c9Final])⟩

end ShellCandy
